import Mathlib

/-!
Shallow embedding of the lihkg-parser extraction pipeline (src/src/main.rs).

Strings are modelled as `List Char` (Rust `str` viewed as its sequence of
Unicode scalar values).  Byte-level facts use an explicit UTF-8 size
function.  The html5ever/scraper HTML parser and serde_json parser are
external crates; the pipeline is embedded from the parsed tree / parsed
JSON value onward, with the parsing steps abstracted as parameters.
-/

namespace Lihkg

/-- UTF-8 encoded size in bytes of one Unicode scalar value, as Rust
`char::len_utf8`. -/
def charUtf8Size (c : Char) : Nat :=
  if c.toNat < 0x80 then 1
  else if c.toNat < 0x800 then 2
  else if c.toNat < 0x10000 then 3
  else 4

/-- Rust `str::len` of a string viewed as its scalar sequence: the total
number of UTF-8 bytes. -/
def utf8Len (p : List Char) : Nat := (p.map charUtf8Size).sum

/-- Rust `str::contains(needle)`: the needle occurs as a contiguous
substring of the haystack. -/
def containsSub : List Char → List Char → Bool
  | [], needle => needle.isEmpty
  | c :: t, needle => needle.isPrefixOf (c :: t) || containsSub t needle

/-- Rust `str::split(sep)` for a one-character separator: the pieces of the
string between occurrences of `sep` (empty pieces included). -/
def splitOnChar (sep : Char) : List Char → List (List Char)
  | [] => [[]]
  | c :: t =>
    match splitOnChar sep t with
    | [] => [[]]
    | h :: r => if c == sep then [] :: h :: r else (c :: h) :: r

/-- Membership of a scalar value in a list of inclusive code-point ranges. -/
def inRanges (rs : List (Nat × Nat)) (c : Char) : Bool :=
  rs.any fun r => decide (r.1 ≤ c.toNat) && decide (c.toNat ≤ r.2)

/-- Code points with the Unicode White_Space property (what Rust
`char::is_whitespace`, used by `str::trim`, tests). -/
def whiteSpaceRanges : List (Nat × Nat) :=
  [(0x9, 0xD), (0x20, 0x20), (0x85, 0x85), (0xA0, 0xA0), (0x1680, 0x1680),
   (0x2000, 0x200A), (0x2028, 0x2029), (0x202F, 0x202F), (0x205F, 0x205F),
   (0x3000, 0x3000)]

/-- Rust `char::is_whitespace`. -/
def isRustWhitespace (c : Char) : Bool := inRanges whiteSpaceRanges c

/-- Rust `str::trim`: drop leading and trailing whitespace. -/
def rustTrim (p : List Char) : List Char :=
  ((p.dropWhile isRustWhitespace).reverse.dropWhile isRustWhitespace).reverse

/-- Code-point ranges with the Unicode Unified_Ideograph property
(Unicode 15.1), the property tested by the source's
`\p\x7bUnified_Ideograph\x7d` regex `CJK_REGEX`. -/
def unifiedIdeographRanges : List (Nat × Nat) :=
  [(0x3400, 0x4DBF), (0x4E00, 0x9FFF), (0xFA0E, 0xFA0F), (0xFA11, 0xFA11),
   (0xFA13, 0xFA14), (0xFA1F, 0xFA1F), (0xFA21, 0xFA21), (0xFA23, 0xFA24),
   (0xFA27, 0xFA29), (0x20000, 0x2A6DF), (0x2A700, 0x2B739),
   (0x2B740, 0x2B81D), (0x2B820, 0x2CEA1), (0x2CEB0, 0x2EBE0),
   (0x2EBF0, 0x2EE5D), (0x30000, 0x3134A), (0x31350, 0x323AF)]

/-- Test for a CJK Unified Ideograph, as the source's `CJK_REGEX.is_match`
on a single character. -/
def is_cjk (c : Char) : Bool := inRanges unifiedIdeographRanges c

/-- Code-point ranges of the Unicode general category Nd (decimal digit,
Unicode 15.1), the class matched by `\d` in the Rust regex crate. -/
def ndRanges : List (Nat × Nat) :=
  [(0x30, 0x39), (0x660, 0x669), (0x6F0, 0x6F9), (0x7C0, 0x7C9),
   (0x966, 0x96F), (0x9E6, 0x9EF), (0xA66, 0xA6F), (0xAE6, 0xAEF),
   (0xB66, 0xB6F), (0xBE6, 0xBEF), (0xC66, 0xC6F), (0xCE6, 0xCEF),
   (0xD66, 0xD6F), (0xDE6, 0xDEF), (0xE50, 0xE59), (0xED0, 0xED9),
   (0xF20, 0xF29), (0x1040, 0x1049), (0x1090, 0x1099), (0x17E0, 0x17E9),
   (0x1810, 0x1819), (0x1946, 0x194F), (0x19D0, 0x19D9), (0x1A80, 0x1A89),
   (0x1A90, 0x1A99), (0x1B50, 0x1B59), (0x1BB0, 0x1BB9), (0x1C40, 0x1C49),
   (0x1C50, 0x1C59), (0xA620, 0xA629), (0xA8D0, 0xA8D9), (0xA900, 0xA909),
   (0xA9D0, 0xA9D9), (0xA9F0, 0xA9F9), (0xAA50, 0xAA59), (0xABF0, 0xABF9),
   (0xFF10, 0xFF19), (0x104A0, 0x104A9), (0x10D30, 0x10D39),
   (0x11066, 0x1106F), (0x110F0, 0x110F9), (0x11136, 0x1113F),
   (0x111D0, 0x111D9), (0x112F0, 0x112F9), (0x11450, 0x11459),
   (0x114D0, 0x114D9), (0x11650, 0x11659), (0x116C0, 0x116C9),
   (0x11730, 0x11739), (0x118E0, 0x118E9), (0x11950, 0x11959),
   (0x11C50, 0x11C59), (0x11D50, 0x11D59), (0x11DA0, 0x11DA9),
   (0x11F50, 0x11F59), (0x16A60, 0x16A69), (0x16AC0, 0x16AC9),
   (0x16B50, 0x16B59), (0x1D7CE, 0x1D7FF), (0x1E140, 0x1E149),
   (0x1E2F0, 0x1E2F9), (0x1E4F0, 0x1E4F9), (0x1E950, 0x1E959),
   (0x1FBF0, 0x1FBF9)]

/-- Class matched by `\d` (Unicode decimal digit) in the source's date and
time regexes. -/
def isNdDigit (c : Char) : Bool := inRanges ndRanges c

/-- Contents of the static set `SHARED_PUNCS`. -/
def SHARED_PUNCS : List Char :=
  ['@', '#', '$', '%', '^', '&', '*', '·', '…', '‥', '—', '～']

/-- Contents of the static set `ENGLISH_PUNCS` (backtick, apostrophe,
double quote, backslash and braces written by code point). -/
def ENGLISH_PUNCS : List Char :=
  ['~', Char.ofNat 0x60, '!', '(', ')', '-', '_', Char.ofNat 0x7B,
   Char.ofNat 0x7D, '[', ']', '|', Char.ofNat 0x5C, ':', ';',
   Char.ofNat 0x22, Char.ofNat 0x27, '<', '>', ',', '.', '?', '/']

/-- Contents of the static set `CHINESE_PUNCS`. -/
def CHINESE_PUNCS : List Char :=
  ['！', '：', '；', '“', '”', '‘', '’', '【', '】', '（', '）', '「', '」',
   '﹁', '﹂', '『', '』', '《', '》', '？', '，', '。', '、', '／', '＋',
   '〈', '〉', '︿', '﹀', '［', '］', '‧']

/-- The static set `PUNCS`: union of the three punctuation sets. -/
def PUNCS : List Char := SHARED_PUNCS ++ ENGLISH_PUNCS ++ CHINESE_PUNCS

/-- Source `is_punc`: membership in `PUNCS`. -/
def is_punc (c : Char) : Bool := PUNCS.contains c

/-- Source `filter_irrelevant_chars`: keep only CJK ideographs, punctuation
from the union set, and ASCII alphanumeric characters. -/
def filter_irrelevant_chars (text : List Char) : List Char :=
  text.filter fun c => is_cjk c || is_punc c || c.isAlphanum

/-- Source `count_matching_chars` with a character predicate standing for
the single-character regex match. -/
def count_matching_chars (text : List Char) (pred : Char → Bool) : Nat :=
  (text.filter pred).length

/-- Character class `[A-Za-z ]` of the source's `english_words_re`. -/
def isEnglishWordChar (c : Char) : Bool :=
  (decide ('A' ≤ c) && decide (c ≤ 'Z')) ||
    (decide ('a' ≤ c) && decide (c ≤ 'z')) || c == ' '

/-- Anchored match of `^[A-Za-z ]+$`. -/
def isOnlyEnglish (p : List Char) : Bool := !p.isEmpty && p.all isEnglishWordChar

/-- Anchored match of the date regex `^\d\x7b4\x7d.\d\x7b2\x7d.\d\x7b2\x7d$`
(a dot matches any character except a newline). -/
def matchesDate : List Char → Bool
  | [a, b, c, d, s1, e, f, s2, g, h] =>
    isNdDigit a && isNdDigit b && isNdDigit c && isNdDigit d &&
      !(s1 == '\n') && isNdDigit e && isNdDigit f && !(s2 == '\n') &&
      isNdDigit g && isNdDigit h
  | _ => false

/-- Anchored match of the time regex `^\d\x7b2\x7d:\d\x7b2\x7d:\d\x7b2\x7d$`. -/
def matchesTime : List Char → Bool
  | [a, b, s1, c, d, s2, e, f] =>
    isNdDigit a && isNdDigit b && s1 == ':' && isNdDigit c && isNdDigit d &&
      s2 == ':' && isNdDigit e && isNdDigit f
  | _ => false

/-- The deletion-placeholder string of validation rule 2. -/
def deletedPlaceholder : List Char := "此回覆已被刪除".toList

/-- The cross-post boilerplate marker of validation rule 3. -/
def lihkgMarker : List Char := "分享自 LIHKG 討論區".toList

/-- The URL markers of validation rule 5. -/
def httpMarker : List Char := "http://".toList

/-- The second URL marker of validation rule 5. -/
def httpsMarker : List Char := "https://".toList

/-- Source `is_valid_para`: the sequence of early-return rejection rules.
Note the final repetition rule compares against `para.len()`, the UTF-8
byte length. -/
def is_valid_para (para : List Char) : Bool :=
  if para.isEmpty then false
  else if para == deletedPlaceholder then false
  else if containsSub para lihkgMarker then false
  else if para.length < 5 ∨ 20 < para.length then false
  else if containsSub para httpMarker || containsSub para httpsMarker then false
  else if isOnlyEnglish para then false
  else if matchesDate para then false
  else if matchesTime para then false
  else if para.eraseDups.length * 5 < utf8Len para then false
  else true

/-- The first eight rules of `is_valid_para` (everything before the
character-repetition check): a paragraph passing these reaches rule 9. -/
def passesRules1to8 (para : List Char) : Bool :=
  if para.isEmpty then false
  else if para == deletedPlaceholder then false
  else if containsSub para lihkgMarker then false
  else if para.length < 5 ∨ 20 < para.length then false
  else if containsSub para httpMarker || containsSub para httpsMarker then false
  else if isOnlyEnglish para then false
  else if matchesDate para then false
  else if matchesTime para then false
  else true

/-- Fuel-driven binary length: number of binary digits of `n` (0 for 0). -/
def bitLenAux : Nat → Nat → Nat
  | 0, _ => 0
  | fuel + 1, n => if n = 0 then 0 else bitLenAux fuel (n / 2) + 1

/-- Number of binary digits of `n`. -/
def bitLen (n : Nat) : Nat := bitLenAux n n

/-- Round `a / b` to the nearest integer, ties to even (`b` positive): the
IEEE-754 default rounding applied to an exact quotient. -/
def rneNat (a b : Nat) : Nat :=
  if 2 * (a % b) < b then a / b
  else if b < 2 * (a % b) then a / b + 1
  else if a / b % 2 = 0 then a / b else a / b + 1

/-- The binary32 value nearest to 4/5, i.e. the Rust literal `0.8_f32`,
is 13421773 / 2^24 (13421773 = RNE(4/5 * 2^24), checked below). -/
def f32Mantissa08 : Nat := 13421773

/-- Value of `num_total as f32 * 0.8` as a dyadic pair `(m, s)` standing
for `m / 2^s`: the exact product `total * 13421773 / 2^24` rounded to a
24-bit significand with round-to-nearest-even.  (`total as f32` is exact
for `total < 2^24`, which holds for every paragraph length reaching this
computation.) -/
def f32MulBy08 (total : Nat) : Nat × Nat :=
  let m := total * f32Mantissa08
  let L := bitLen m
  if L ≤ 24 then (m, 24) else (rneNat m (2 ^ (L - 24)), 24 - (L - 24))

/-- Round half away from zero of the nonnegative quotient `a / b`, i.e.
`⌊a / b + 1/2⌋`: the behaviour of `f32::round` followed by `as usize` on
the small integral results arising here. -/
def roundHalfAwayDiv (a b : Nat) : Nat := (2 * a + b) / (2 * b)

/-- Model of the source expression
`(num_total as f32 * 0.8).round() as usize`. -/
def cjkThreshold (total : Nat) : Nat :=
  roundHalfAwayDiv (f32MulBy08 total).1 (2 ^ (f32MulBy08 total).2)

/-- Round-half-away-from-zero of the exact rational `total * 0.8`
(= `4 * total / 5`), the spec's reading of the threshold. -/
def specRound08 (total : Nat) : Nat := roundHalfAwayDiv (4 * total) 5

/-- Output contributed by one trimmed candidate paragraph in
`process_line`: validation, then the script-ratio check, then character
filtering, then a newline terminator. -/
def paraContribution (para : List Char) : List Char :=
  if is_valid_para para then
    if 5 ≤ count_matching_chars para is_cjk ∧
        cjkThreshold para.length < count_matching_chars para is_cjk then
      filter_irrelevant_chars para ++ ['\n']
    else []
  else []

/-- Parsed HTML fragment tree: the scraper/html5ever node model restricted
to what `convert_html_to_text` observes (text nodes and named elements
with children; other node kinds contribute no text and no structure
relevant here). -/
inductive Dom where
  | text : List Char → Dom
  | elem : List Char → List Dom → Dom


/-- An element matched by the `blockquote` selector. -/
def isBlockquote : Dom → Bool
  | .elem tag _ => tag == "blockquote".toList
  | .text _ => false

mutual

/-- Removal of every blockquote element together with its subtree, as the
source's loop calling `remove_from_parent` on every node id matched by the
`blockquote` selector. -/
def removeBq : Dom → Dom
  | .text s => .text s
  | .elem t cs => .elem t (removeBqList cs)

/-- Blockquote removal over a child list. -/
def removeBqList : List Dom → List Dom
  | [] => []
  | d :: ds =>
    if isBlockquote d then removeBqList ds
    else removeBq d :: removeBqList ds

end

mutual

/-- Concatenation of all text nodes in document order, as
`root_element().text().collect()`. -/
def textOf : Dom → List Char
  | .text s => s
  | .elem _ cs => textOfList cs

/-- Text concatenation over a child list. -/
def textOfList : List Dom → List Char
  | [] => []
  | d :: ds => textOf d ++ textOfList ds

end

/-- Source `convert_html_to_text` from the parsed fragment onward: the
fragment is given as the root element's child list; blockquote subtrees
are removed, then all remaining text nodes are concatenated. -/
def convert_html_to_text (fragment : List Dom) : List Char :=
  textOfList (removeBqList fragment)

mutual

/-- The character `c` occurs in some text node of `d` that is not inside
any blockquote element (the node `d` itself not counted as an enclosing
element). -/
def charOutsideBq (c : Char) : Dom → Bool
  | .text s => s.contains c
  | .elem _ cs => charOutsideBqList c cs

/-- Occurrence of `c` outside blockquotes, over a child list. -/
def charOutsideBqList (c : Char) : List Dom → Bool
  | [] => false
  | d :: ds =>
    if isBlockquote d then charOutsideBqList c ds
    else charOutsideBq c d || charOutsideBqList c ds

end

/-- JSON value as serde_json's `Value`, with numbers restricted to the
integers (the only numerics the pipeline inspects; `as_i64` on any other
number is `None`, indistinguishable here from a missing field). -/
inductive Json where
  | null : Json
  | bool : Bool → Json
  | num : Int → Json
  | str : List Char → Json
  | arr : List Json → Json
  | obj : List (List Char × Json) → Json

/-- serde_json `Value` indexing by a string key: member lookup on an
object, `Null` on a missing key or a non-object. -/
def Json.get (j : Json) (key : List Char) : Json :=
  match j with
  | .obj kvs =>
    match kvs.find? (fun kv => kv.1 == key) with
    | some kv => kv.2
    | none => .null
  | _ => .null

/-- serde_json `Value::as_i64`. -/
def Json.as_i64 : Json → Option Int
  | .num n => some n
  | _ => none

/-- serde_json `Value::as_str`. -/
def Json.as_str : Json → Option (List Char)
  | .str s => some s
  | _ => none

/-- serde_json `Value::as_array`. -/
def Json.as_array : Json → Option (List Json)
  | .arr items => some items
  | _ => none

/-- Output contributed by the extracted text of one `msg` field: split on
newlines, trim each piece, validate and filter. -/
def textContribution (text : List Char) : List Char :=
  ((splitOnChar '\n' text).map fun para => paraContribution (rustTrim para)).flatten

/-- Output contributed by one element of `item_data`, given the external
HTML fragment parser `hp` (html5ever's `Html::parse_fragment`). -/
def itemContribution (hp : List Char → List Dom) (item : Json) : List Char :=
  match (item.get "msg".toList).as_str with
  | some msg => textContribution (convert_html_to_text (hp msg))
  | none => []

/-- Result of one `process_line` call on the mutable output buffer:
`panic` models the `unwrap` on a missing field 2 aborting the thread;
`err` models the `Err` return of a JSON parse failure (carrying the
buffer, which the call has not touched); `ok` carries the final buffer. -/
inductive ProcResult where
  | panic : ProcResult
  | err : List Char → ProcResult
  | ok : List Char → ProcResult

/-- Source `process_line`, parameterized by the external JSON parser
`parse` (serde_json `from_str`) and HTML fragment parser `hp`. -/
def process_line (hp : List Char → List Dom) (parse : List Char → Option Json)
    (line : List Char) (result : List Char) : ProcResult :=
  match (splitOnChar '\t' line).get? 2 with
  | none => .panic
  | some field =>
    match parse field with
    | none => .err result
    | some obj =>
      if (obj.get "success".toList).as_i64 == some 1 then
        match ((obj.get "response".toList).get "item_data".toList).as_array with
        | some items =>
          .ok (result ++ (items.map (itemContribution hp)).flatten)
        | none => .ok result
      else .ok result

/-- The batch-dispatch loop of `main` over one archive entry's lines:
lines are pushed into an accumulator and a batch is dispatched to a worker
thread exactly when the accumulator reaches 1000 lines.  The returned list
is the list of dispatched batches; whatever remains in the accumulator
when the entry's lines end is returned by `leftoverLines` and is never
dispatched. -/
def dispatchBatches (acc : List α) : List α → List (List α)
  | [] => []
  | l :: ls =>
    if 1000 ≤ (acc ++ [l]).length then (acc ++ [l]) :: dispatchBatches [] ls
    else dispatchBatches (acc ++ [l]) ls

/-- Contents of the line accumulator when the entry's line iteration ends
(dropped by the source, which starts a fresh accumulator for the next
entry). -/
def leftoverLines (acc : List α) : List α → List α
  | [] => acc
  | l :: ls =>
    if 1000 ≤ (acc ++ [l]).length then leftoverLines [] ls
    else leftoverLines (acc ++ [l]) ls


/-- Decomposition of the validator: acceptance is passing the first eight
rules together with passing the character-repetition rule, which compares
five times the distinct-character count against the UTF-8 byte length. -/
theorem is_valid_decompose (p : List Char) :
    is_valid_para p =
      (passesRules1to8 p && !(decide (p.eraseDups.length * 5 < utf8Len p))) := by
  unfold is_valid_para passesRules1to8
  split_ifs <;> simp_all

/-- Length bounds enforced by validation rule 4. -/
theorem valid_length_bounds {p : List Char} (h : is_valid_para p = true) :
    5 ≤ p.length ∧ p.length ≤ 20 := by
  unfold is_valid_para at h
  split_ifs at h with h1 h2 h3 h4
  rcases not_or.mp h4 with ⟨h4a, h4b⟩
  omega

/-- C1: every paragraph accepted by `is_valid_para` has between 5 and 20
Unicode scalar values inclusive, contains neither `http://` nor
`https://`, and is not the deletion placeholder. -/
theorem claim_C1 {p : List Char} (h : is_valid_para p = true) :
    (5 ≤ p.length ∧ p.length ≤ 20) ∧
      containsSub p httpMarker = false ∧ containsSub p httpsMarker = false ∧
      p ≠ deletedPlaceholder := by
  refine ⟨valid_length_bounds h, ?_⟩
  unfold is_valid_para at h
  split_ifs at h with h1 h2 h3 h4 h5
  have h5' := h5
  simp only [Bool.or_eq_true, not_or, Bool.not_eq_true] at h5'
  exact ⟨h5'.1, h5'.2, by simpa using h2⟩

/-- Witness for C1 at the concrete accepted paragraph "這是一個測試". -/
theorem claim_C1_witness :
    is_valid_para "這是一個測試".toList = true ∧
      ((5 ≤ "這是一個測試".toList.length ∧ "這是一個測試".toList.length ≤ 20) ∧
        containsSub "這是一個測試".toList httpMarker = false ∧
        containsSub "這是一個測試".toList httpsMarker = false ∧
        "這是一個測試".toList ≠ deletedPlaceholder) :=
  ⟨by decide, claim_C1 (by decide)⟩

/-- C2 counterexample: the paragraph "一一一一一二" reaches the
character-repetition rule, its distinct-character count times 5 (= 10) is
not less than its scalar count (= 6), so the claim predicts acceptance,
yet the validator rejects it (10 is less than its UTF-8 byte length 18). -/
theorem claim_C2_counterexample :
    passesRules1to8 "一一一一一二".toList = true ∧
      ¬("一一一一一二".toList.eraseDups.length * 5 <
          "一一一一一二".toList.length) ∧
      is_valid_para "一一一一一二".toList = false := by decide

/-- C2 (amended): for a paragraph reaching the character-repetition rule,
the validator rejects it if and only if the distinct-character count times
5 is less than the UTF-8 byte length of the paragraph (`para.len()` in the
source is the byte count, not the scalar count). -/
theorem claim_C2 {p : List Char} (h : passesRules1to8 p = true) :
    is_valid_para p = false ↔ p.eraseDups.length * 5 < utf8Len p := by
  rw [is_valid_decompose p, h]
  simp

/-- Witness for C2 at the concrete paragraph "一一一一一二". -/
theorem claim_C2_witness :
    passesRules1to8 "一一一一一二".toList = true ∧
      (is_valid_para "一一一一一二".toList = false ↔
        "一一一一一二".toList.eraseDups.length * 5 <
          utf8Len "一一一一一二".toList) :=
  ⟨by decide, claim_C2 (by decide)⟩

/-- C7: the character-level filter of the Script-Ratio Filter is
idempotent. -/
theorem claim_C7 (s : List Char) :
    filter_irrelevant_chars (filter_irrelevant_chars s) =
      filter_irrelevant_chars s := by
  unfold filter_irrelevant_chars
  rw [List.filter_filter]
  simp


/-- Justification of the 0.8 literal: 13421773 / 2^24 is within half a
unit in the last place of 4/5, so it is the binary32 value denoted by the
source literal `0.8`. -/
theorem f32Mantissa08_nearest :
    (f32Mantissa08 : ℚ) - 4 / 5 * 2 ^ 24 ≤ 1 / 2 ∧
      4 / 5 * 2 ^ 24 - (f32Mantissa08 : ℚ) ≤ 1 / 2 := by
  unfold f32Mantissa08
  norm_num

/-- On every length a validator-accepted paragraph can have, the
floating-point threshold computed by the source agrees with
round-half-away-from-zero of the exact product `total * 0.8`. -/
theorem cjkThreshold_eq_specRound :
    ∀ t < 21, 5 ≤ t → cjkThreshold t = specRound08 t := by decide

/-- C3: for a validator-accepted paragraph, the Script-Ratio Filter either
appends exactly the filtered paragraph plus a newline or appends nothing;
it appends if and only if the CJK count is at least 5 and exceeds the
rounded product `total * 0.8`; and on these lengths the floating-point
product with round-half-away-from-zero agrees with exact
round-half-away-from-zero. -/
theorem claim_C3 {p : List Char} (h : is_valid_para p = true) :
    (paraContribution p = filter_irrelevant_chars p ++ ['\n'] ∨
        paraContribution p = []) ∧
      (paraContribution p = filter_irrelevant_chars p ++ ['\n'] ↔
        5 ≤ count_matching_chars p is_cjk ∧
          cjkThreshold p.length < count_matching_chars p is_cjk) ∧
      cjkThreshold p.length = specRound08 p.length := by
  have hb := valid_length_bounds h
  have ht : cjkThreshold p.length = specRound08 p.length :=
    cjkThreshold_eq_specRound p.length (by omega) hb.1
  refine ⟨?_, ?_, ht⟩ <;>
    · unfold paraContribution
      rw [h]
      by_cases hc : 5 ≤ count_matching_chars p is_cjk ∧
          cjkThreshold p.length < count_matching_chars p is_cjk
      · simp [hc]
      · simp [hc]

/-- Witness for C3 at the concrete accepted paragraph "這是一個測試". -/
theorem claim_C3_witness :
    is_valid_para "這是一個測試".toList = true ∧
      ((paraContribution "這是一個測試".toList =
          filter_irrelevant_chars "這是一個測試".toList ++ ['\n'] ∨
          paraContribution "這是一個測試".toList = []) ∧
        (paraContribution "這是一個測試".toList =
            filter_irrelevant_chars "這是一個測試".toList ++ ['\n'] ↔
          5 ≤ count_matching_chars "這是一個測試".toList is_cjk ∧
            cjkThreshold "這是一個測試".toList.length <
              count_matching_chars "這是一個測試".toList is_cjk) ∧
        cjkThreshold "這是一個測試".toList.length =
          specRound08 "這是一個測試".toList.length) :=
  ⟨by decide, claim_C3 (by decide)⟩

/-- C6: the character filter retains exactly the CJK, punctuation-union
and ASCII-alphanumeric characters (stated by occurrence counts), and a
kept paragraph's filtered form is appended with no re-validation of its
length after filtering. -/
theorem claim_C6 :
    (∀ (s : List Char) (c : Char),
        (filter_irrelevant_chars s).count c =
          if is_cjk c || is_punc c || c.isAlphanum then s.count c else 0) ∧
      ∀ p : List Char, is_valid_para p = true →
        5 ≤ count_matching_chars p is_cjk →
        cjkThreshold p.length < count_matching_chars p is_cjk →
        paraContribution p = filter_irrelevant_chars p ++ ['\n'] := by
  constructor
  · intro s c
    induction s with
    | nil => simp [filter_irrelevant_chars]
    | cons a t ih =>
      unfold filter_irrelevant_chars at ih ⊢
      by_cases hpa : (is_cjk a || is_punc a || a.isAlphanum) = true
      · by_cases hac : a = c
        · subst hac
          simp [List.filter_cons, hpa, List.count_cons, ih]
        · simp [List.filter_cons, hpa, List.count_cons, ih, hac]
      · by_cases hac : a = c
        · subst hac
          simp only [Bool.not_eq_true] at hpa
          simp [List.filter_cons, hpa, List.count_cons, ih]
        · simp [List.filter_cons, hpa, List.count_cons, ih, hac]
  · intro p hv h5 hgt
    unfold paraContribution
    rw [hv]
    simp [h5, hgt]

/-- Witness for C6: the count characterization at a concrete string and
the unconditional append at a concrete kept paragraph. -/
theorem claim_C6_witness :
    (filter_irrelevant_chars "a中!€".toList).count '中' =
        (if is_cjk '中' || is_punc '中' || '中'.isAlphanum then
          ("a中!€".toList).count '中' else 0) ∧
      paraContribution "這是一個測試".toList =
        filter_irrelevant_chars "這是一個測試".toList ++ ['\n'] :=
  ⟨claim_C6.1 "a中!€".toList '中',
    claim_C6.2 "這是一個測試".toList (by decide) (by decide) (by decide)⟩


mutual

/-- Characters occurring only inside blockquote subtrees of a node do not
survive blockquote removal followed by text extraction. -/
theorem charOutside_sound (c : Char) :
    ∀ d : Dom, charOutsideBq c d = false → c ∉ textOf (removeBq d)
  | .text s, h => by
    intro hc
    simp only [removeBq, textOf] at hc
    simp only [charOutsideBq, List.contains] at h
    simp at h
    exact h hc
  | .elem t cs, h => by
    simp only [removeBq, textOf]
    simp only [charOutsideBq] at h
    exact charOutsideList_sound c cs h

/-- Same soundness statement over a child list. -/
theorem charOutsideList_sound (c : Char) :
    ∀ ds : List Dom, charOutsideBqList c ds = false →
      c ∉ textOfList (removeBqList ds)
  | [], _ => by simp [removeBqList, textOfList]
  | d :: ds, h => by
    simp only [charOutsideBqList] at h
    simp only [removeBqList]
    by_cases hbq : isBlockquote d = true
    · rw [if_pos hbq] at h ⊢
      exact charOutsideList_sound c ds h
    · rw [if_neg hbq] at h ⊢
      rw [Bool.or_eq_false_iff] at h
      simp only [textOfList]
      intro hc
      rcases List.mem_append.mp hc with h1 | h2
      · exact charOutside_sound c d h.1 h1
      · exact charOutsideList_sound c ds h.2 h2

end

/-- C4: any character that occurs only inside blockquote elements of the
parsed fragment (at any nesting depth) is absent from the text returned by
`convert_html_to_text`; in particular the output never contains a marker
text unique to a blockquote subtree. -/
theorem claim_C4 (fragment : List Dom) (c : Char)
    (h : charOutsideBqList c fragment = false) :
    c ∉ convert_html_to_text fragment :=
  charOutsideList_sound c fragment h

/-- Witness for C4: a fragment with the marker character inside a doubly
nested blockquote next to ordinary text. -/
theorem claim_C4_witness :
    charOutsideBqList '隱'
        [Dom.elem "p".toList [Dom.text "這是測試".toList],
          Dom.elem "blockquote".toList
            [Dom.elem "blockquote".toList [Dom.text "隱藏內容".toList]]] =
        false ∧
      '隱' ∉ convert_html_to_text
        [Dom.elem "p".toList [Dom.text "這是測試".toList],
          Dom.elem "blockquote".toList
            [Dom.elem "blockquote".toList [Dom.text "隱藏內容".toList]]] :=
  ⟨by decide, claim_C4 _ _ (by decide)⟩


/-- The dispatched batches followed by the final accumulator contents
reconstitute the accumulator and the entry's lines. -/
theorem dispatch_leftover_append (ls : List α) :
    ∀ acc, (dispatchBatches acc ls).flatten ++ leftoverLines acc ls = acc ++ ls := by
  induction ls with
  | nil => intro acc; simp [dispatchBatches, leftoverLines]
  | cons l ls ih =>
    intro acc
    simp only [dispatchBatches, leftoverLines]
    by_cases hlen : 1000 ≤ (acc ++ [l]).length
    · rw [if_pos hlen, if_pos hlen]
      simp only [List.flatten_cons, List.append_assoc]
      rw [ih []]
      simp
    · rw [if_neg hlen, if_neg hlen]
      rw [ih (acc ++ [l])]
      simp

/-- Size of the final accumulator contents: the entry's line count modulo
the batch size. -/
theorem leftover_length (ls : List α) :
    ∀ acc : List α, acc.length < 1000 →
      (leftoverLines acc ls).length = (acc.length + ls.length) % 1000 := by
  induction ls with
  | nil =>
    intro acc h
    simp [leftoverLines, Nat.mod_eq_of_lt h]
  | cons l ls ih =>
    intro acc h
    simp only [leftoverLines]
    by_cases hlen : 1000 ≤ (acc ++ [l]).length
    · rw [if_pos hlen]
      rw [ih [] (by norm_num)]
      simp only [List.length_append, List.length_cons, List.length_nil] at hlen ⊢
      omega
    · rw [if_neg hlen]
      rw [ih (acc ++ [l]) (by simp only [List.length_append, List.length_cons,
        List.length_nil] at hlen ⊢; omega)]
      simp only [List.length_append, List.length_cons, List.length_nil]
      omega

/-- Every dispatched batch holds exactly 1000 lines. -/
theorem dispatch_batch_sizes (ls : List α) :
    ∀ acc : List α, acc.length < 1000 →
      ∀ b ∈ dispatchBatches acc ls, b.length = 1000 := by
  induction ls with
  | nil => intro acc _ b hb; simp [dispatchBatches] at hb
  | cons l ls ih =>
    intro acc h b hb
    simp only [dispatchBatches] at hb
    by_cases hlen : 1000 ≤ (acc ++ [l]).length
    · rw [if_pos hlen] at hb
      rcases List.mem_cons.mp hb with hb | hb
      · subst hb
        simp only [List.length_append, List.length_cons, List.length_nil] at hlen ⊢
        omega
      · exact ih [] (by norm_num) b hb
    · rw [if_neg hlen] at hb
      exact ih (acc ++ [l]) (by simp only [List.length_append, List.length_cons,
        List.length_nil] at hlen ⊢; omega) b hb

/-- C9: over one archive entry the dispatched batches cover exactly the
longest prefix whose length is a multiple of the batch size 1000, every
dispatched batch has exactly 1000 lines, and the trailing partial group
(the entry's line count modulo 1000) stays in the accumulator and is never
dispatched. -/
theorem claim_C9 (ls : List (List Char)) :
    (dispatchBatches ([] : List (List Char)) ls).flatten =
        ls.take (1000 * (ls.length / 1000)) ∧
      leftoverLines ([] : List (List Char)) ls =
        ls.drop (1000 * (ls.length / 1000)) ∧
      (leftoverLines ([] : List (List Char)) ls).length = ls.length % 1000 ∧
      ((dispatchBatches ([] : List (List Char)) ls).all
        fun b => b.length == 1000) = true := by
  have hjl := dispatch_leftover_append ls []
  rw [List.nil_append] at hjl
  have hlen := leftover_length ls [] (by norm_num)
  rw [List.length_nil, Nat.zero_add] at hlen
  have hflen : (dispatchBatches ([] : List (List Char)) ls).flatten.length =
      1000 * (ls.length / 1000) := by
    have hc := congrArg List.length hjl
    rw [List.length_append] at hc
    omega
  refine ⟨?_, ?_, hlen, ?_⟩
  · rw [← List.take_left' hflen, hjl]
  · have hd := @List.drop_left' (List Char) _ (leftoverLines [] ls) _ hflen
    rw [hjl] at hd
    exact hd.symm
  · rw [List.all_eq_true]
    intro b hb
    exact beq_iff_eq.mpr (dispatch_batch_sizes ls [] (by norm_num) b hb)


/-- C5: on a line with at least 3 tab-delimited fields whose field 2
parses as JSON, if `success` is absent or not the integer 1, or the
nested `response.item_data` value is absent or not an array, then
`process_line` returns successfully with the output buffer unchanged. -/
theorem claim_C5 (hp : List Char → List Dom) (parse : List Char → Option Json)
    (line buf field : List Char) (obj : Json)
    (hf : (splitOnChar '\t' line).get? 2 = some field)
    (hj : parse field = some obj)
    (hno : (obj.get "success".toList).as_i64 ≠ some 1 ∨
      ((obj.get "response".toList).get "item_data".toList).as_array = none) :
    process_line hp parse line buf = .ok buf := by
  unfold process_line
  split
  · next hnone => rw [hf] at hnone; cases hnone
  · next field' hsome =>
    rw [hf] at hsome
    injection hsome with he
    subst he
    split
    · next hpn => rw [hj] at hpn; cases hpn
    · next obj' hpo =>
      rw [hj] at hpo
      injection hpo with he2
      subst he2
      rcases hno with hno | hno
      · rw [if_neg (by simpa using hno)]
      · by_cases hs : ((obj.get "success".toList).as_i64 == some 1) = true
        · rw [if_pos hs, hno]
        · rw [if_neg hs]

/-- Witness for C5 at a concrete line and parse result with `success` 0. -/
theorem claim_C5_witness :
    (splitOnChar '\t' "a\tb\tx".toList).get? 2 = some "x".toList ∧
      process_line (fun _ => [])
          (fun _ => some (Json.obj [("success".toList, Json.num 0)]))
          "a\tb\tx".toList "z".toList =
        .ok "z".toList :=
  ⟨by decide,
    claim_C5 (fun _ => []) (fun _ => some (Json.obj [("success".toList, Json.num 0)]))
      "a\tb\tx".toList "z".toList "x".toList
      (Json.obj [("success".toList, Json.num 0)]) (by decide) rfl
      (Or.inl (by decide))⟩

/-- C8: `process_line` fails exactly at its first two steps: with fewer
than 3 tab-delimited fields it panics; with a field 2 that does not parse
as JSON it returns an error; with a field 2 that parses it returns
successfully. -/
theorem claim_C8 (hp : List Char → List Dom) (parse : List Char → Option Json)
    (line buf : List Char) :
    ((splitOnChar '\t' line).length ≤ 2 →
        process_line hp parse line buf = .panic) ∧
      (∀ field, (splitOnChar '\t' line).get? 2 = some field →
        parse field = none → process_line hp parse line buf = .err buf) ∧
      (∀ field obj, (splitOnChar '\t' line).get? 2 = some field →
        parse field = some obj →
        ∃ out, process_line hp parse line buf = .ok out) := by
  refine ⟨?_, ?_, ?_⟩
  · intro hlen
    unfold process_line
    split
    · rfl
    · next field' hsome =>
      rw [List.get?_eq_none.mpr hlen] at hsome
      cases hsome
  · intro field hf hpn
    unfold process_line
    split
    · next hnone => rw [hf] at hnone; cases hnone
    · next field' hsome =>
      rw [hf] at hsome
      injection hsome with he
      subst he
      split
      · rfl
      · next obj' hpo => rw [hpn] at hpo; cases hpo
  · intro field obj hf hpj
    unfold process_line
    split
    · next hnone => rw [hf] at hnone; cases hnone
    · next field' hsome =>
      rw [hf] at hsome
      injection hsome with he
      subst he
      split
      · next hpn => rw [hpj] at hpn; cases hpn
      · next obj' hpo =>
        rw [hpj] at hpo
        injection hpo with he2
        subst he2
        by_cases hs : ((obj.get "success".toList).as_i64 == some 1) = true
        · rw [if_pos hs]
          cases harr : ((obj.get "response".toList).get "item_data".toList).as_array with
          | none => exact ⟨buf, rfl⟩
          | some items => exact ⟨_, rfl⟩
        · rw [if_neg hs]
          exact ⟨buf, rfl⟩

/-- Witness for C8: the three behaviours at concrete lines. -/
theorem claim_C8_witness :
    process_line (fun _ => []) (fun _ => none) "ab".toList "z".toList = .panic ∧
      process_line (fun _ => []) (fun _ => none) "a\tb\tx".toList "z".toList =
        .err "z".toList ∧
      ∃ out, process_line (fun _ => []) (fun _ => some Json.null)
        "a\tb\tx".toList "z".toList = .ok out :=
  ⟨(claim_C8 (fun _ => []) (fun _ => none) "ab".toList "z".toList).1 (by decide),
    (claim_C8 (fun _ => []) (fun _ => none) "a\tb\tx".toList "z".toList).2.1
      "x".toList (by decide) rfl,
    (claim_C8 (fun _ => []) (fun _ => some Json.null) "a\tb\tx".toList
        "z".toList).2.2 "x".toList Json.null (by decide) rfl⟩

/-- C10: `process_line` is append-only and atomic on its output buffer:
a successful call extends the initial buffer (the initial contents remain
a prefix), and an erroring call leaves the buffer exactly as it was. -/
theorem claim_C10 (hp : List Char → List Dom) (parse : List Char → Option Json)
    (line buf : List Char) :
    (∀ out, process_line hp parse line buf = .ok out → buf <+: out) ∧
      ∀ out, process_line hp parse line buf = .err out → out = buf := by
  constructor
  · intro out h
    unfold process_line at h
    split at h
    · cases h
    · split at h
      · cases h
      · split at h
        · split at h
          · cases h
            exact ⟨_, rfl⟩
          · cases h
            exact ⟨[], List.append_nil buf⟩
        · cases h
          exact ⟨[], List.append_nil buf⟩
  · intro out h
    unfold process_line at h
    split at h
    · cases h
    · split at h
      · cases h
        rfl
      · split at h
        · split at h <;> cases h
        · cases h

/-- Witness for C10: a successful concrete call extends the buffer and an
erroring concrete call leaves it unchanged. -/
theorem claim_C10_witness :
    ("z".toList <+: "z".toList) ∧ "z".toList = "z".toList :=
  ⟨(claim_C10 (fun _ => []) (fun _ => some Json.null) "a\tb\tx".toList
      "z".toList).1 "z".toList rfl,
    (claim_C10 (fun _ => []) (fun _ => none) "a\tb\tx".toList "z".toList).2
      "z".toList rfl⟩

end Lihkg
